import Mathlib

/-!
Shallow embedding of the SWE-agent orchestrator core: the guarded state
machine, the retry/budget policies, the execution engine, the benchmark
runner, and the GitHub rate limiter, translated from the Python sources,
with theorems settling the specification's claims about them.
-/

/-- Python values that flow through the orchestrator's untyped dictionaries.
The orchestrator only ever stores and inspects None, booleans, integers and
strings in the positions our claims touch. -/
inductive PyVal where
  | pynone : PyVal
  | pybool : Bool → PyVal
  | pyint : Int → PyVal
  | pystr : String → PyVal
deriving DecidableEq, Repr

/-- A Python dict with string keys, as an association list (first binding wins,
matching unique-key Python dicts). -/
abbrev PyDict := List (String × PyVal)

/-- Python dict.get(key, default). -/
def pyGet (d : PyDict) (k : String) (dflt : PyVal) : PyVal :=
  match d.lookup k with
  | some v => v
  | none => dflt

/-- Python truthiness of a value, as used by bare "if x:" tests. -/
def pyTruthy : PyVal → Bool
  | .pynone => false
  | .pybool b => b
  | .pyint n => n != 0
  | .pystr s => s != ""

/-- Python identity comparison "v is False": true exactly for the literal
boolean False (an int 0 or None is a different object, hence not False). -/
def isLiteralFalse : PyVal → Bool
  | .pybool false => true
  | _ => false

/-- Python str.lower, character by character (the markers are ASCII). -/
def strLower (s : String) : String := String.mk (s.data.map Char.toLower)

/-- Does the character list start with the given pattern? -/
def charsStartWith : List Char → List Char → Bool
  | _, [] => true
  | [], _ :: _ => false
  | c :: cs, p :: ps => c == p && charsStartWith cs ps

/-- Does the character list contain the given pattern as a contiguous run? -/
def charsContain : List Char → List Char → Bool
  | [], ps => ps.isEmpty
  | c :: cs, ps => charsStartWith (c :: cs) ps || charsContain cs ps

/-- Substring containment, mirroring Python's "pat in s". -/
def strContains (s pat : String) : Bool :=
  charsContain s.data pat.data

/-- Kinds of Python exceptions the orchestrator distinguishes (by isinstance
checks or by raising them itself). -/
inductive PyErrKind where
  | connectionError
  | timeoutError
  | rateLimitError
  | authenticationError
  | budgetExceeded
  | agentExecutionError
  | otherError
deriving DecidableEq, Repr

/-- A Python exception as the policies see it: its class kind plus str(error). -/
structure PyErr where
  kind : PyErrKind
  msg : String
deriving DecidableEq, Repr

/-- RetryPolicy from orchestrator/policies.py. -/
structure RetryPolicy where
  max_retries : Nat := 3
  initial_delay_seconds : ℚ := 5
  max_delay_seconds : ℚ := 120
  exponential_base : ℚ := 2
  rate_limit_delay_seconds : ℚ := 60
deriving DecidableEq, Repr

/-- The textual rate-limit marker test the policy performs on the lowercased
str(error): "429" in s or "resource_exhausted" in s or "rate limit" in s. -/
def rateLimitText (errorStr : String) : Bool :=
  strContains errorStr "429" || strContains errorStr "resource_exhausted" ||
    strContains errorStr "rate limit"

/-- RetryPolicy.get_delay: rate-limit branch waits base*(attempt+1); otherwise
exponential backoff capped at max_delay_seconds. -/
def RetryPolicy.get_delay (p : RetryPolicy) (attempt : Nat) (is_rate_limit : Bool) : ℚ :=
  if is_rate_limit then
    p.rate_limit_delay_seconds * (attempt + 1)
  else
    min (p.initial_delay_seconds * p.exponential_base ^ attempt) p.max_delay_seconds

/-- RetryPolicy.should_retry: hard cap on attempts, then the textual rate-limit
markers on the lowercased message, then
isinstance(error, (ConnectionError, TimeoutError)). -/
def RetryPolicy.should_retry (p : RetryPolicy) (attempt : Nat) (error : PyErr) : Bool :=
  if attempt ≥ p.max_retries then false
  else if rateLimitText (strLower error.msg) then true
  else error.kind == .connectionError || error.kind == .timeoutError

/-- RetryPolicy.is_rate_limit_error. -/
def RetryPolicy.is_rate_limit_error (_p : RetryPolicy) (error : PyErr) : Bool :=
  rateLimitText (strLower error.msg)

/-- BudgetPolicy from orchestrator/policies.py. -/
structure BudgetPolicy where
  max_tokens_per_issue : Int := 100000
  max_cost_per_issue_usd : ℚ := 5
  max_tokens_per_agent : Int := 25000
  input_cost_per_1k : ℚ := 0.00015
  output_cost_per_1k : ℚ := 0.0006
deriving DecidableEq, Repr

/-- BudgetPolicy.check_token_budget. -/
def BudgetPolicy.check_token_budget (p : BudgetPolicy) (current_tokens requested_tokens : Int) : Bool :=
  decide (current_tokens + requested_tokens ≤ p.max_tokens_per_issue)

/-- BudgetPolicy.estimate_cost (true division, as Python's slash on ints). -/
def BudgetPolicy.estimate_cost (p : BudgetPolicy) (input_tokens output_tokens : Int) : ℚ :=
  ((input_tokens : ℚ) / 1000) * p.input_cost_per_1k +
    ((output_tokens : ℚ) / 1000) * p.output_cost_per_1k

/-- BudgetPolicy.check_cost_budget. -/
def BudgetPolicy.check_cost_budget (p : BudgetPolicy) (current_cost estimated_additional : ℚ) : Bool :=
  decide (current_cost + estimated_additional ≤ p.max_cost_per_issue_usd)

/-- PolicyManager with its default sub-policies (timeout and security policies
are not consulted on the paths the claims concern). -/
structure PolicyManager where
  retry : RetryPolicy := {}
  budget : BudgetPolicy := {}
deriving DecidableEq, Repr

/-- The default RetryPolicy (all dataclass defaults). -/
def defaultRetryPolicy : RetryPolicy := {}

/-- The default BudgetPolicy (all dataclass defaults). -/
def defaultBudgetPolicy : BudgetPolicy := {}

/-- The default PolicyManager. -/
def defaultPolicyManager : PolicyManager := {}

/-- Claim C5 (counterexample): an error of the explicit rate-limit kind whose
message carries none of the textual markers is NOT retried, even at attempt
0 < max_retries, contradicting "True for every explicit rate-limit error kind". -/
theorem should_retry_rate_limit_kind_refused :
    0 < defaultRetryPolicy.max_retries ∧
      defaultRetryPolicy.should_retry 0 ⟨.rateLimitError, "quota exceeded"⟩ = false := by
  constructor
  · decide
  · rfl

/-- Claim C5 (amended): should_retry returns False whenever
attempt ≥ max_retries; below the cap it returns True exactly when the
lowercased message contains one of the markers "429", "resource_exhausted",
"rate limit", or the error kind is connection or timeout. An explicit
rate-limit error kind is retried only via its message text. -/
theorem should_retry_characterization (p : RetryPolicy) (attempt : Nat) (error : PyErr) :
    p.should_retry attempt error = true ↔
      attempt < p.max_retries ∧
        (rateLimitText (strLower error.msg) = true ∨
          error.kind = .connectionError ∨ error.kind = .timeoutError) := by
  unfold RetryPolicy.should_retry
  split_ifs with h hr
  · simp only [Bool.false_eq_true, false_iff]
    intro hc
    omega
  · simp only [true_iff]
    exact ⟨by omega, Or.inl hr⟩
  · simp only [Bool.or_eq_true, beq_iff_eq]
    have hlt : attempt < p.max_retries := by omega
    simp only [hr, false_or]
    tauto

/-- Claim C5 witness: the characterization applied at a concrete input. -/
theorem should_retry_characterization_witness :
    defaultRetryPolicy.should_retry 1 ⟨.connectionError, "boom"⟩ = true :=
  (should_retry_characterization defaultRetryPolicy 1 ⟨.connectionError, "boom"⟩).mpr
    (by constructor
        · decide
        · right; left; rfl)

/-- Claim C6 (counterexample): the rate-limit branch of get_delay is not capped
by max_delay_seconds: at attempt 2 the default policy waits 180 s > 120 s. -/
theorem get_delay_rate_limit_exceeds_cap :
    defaultRetryPolicy.get_delay 2 true = 180 ∧
      ¬ (defaultRetryPolicy.get_delay 2 true ≤ defaultRetryPolicy.max_delay_seconds) := by
  constructor
  · norm_num [RetryPolicy.get_delay, defaultRetryPolicy]
  · norm_num [RetryPolicy.get_delay, defaultRetryPolicy]

/-- Claim C6 (amended): get_delay(0) in the backoff branch equals the initial
delay; the backoff branch is capped at max_delay for every attempt and every
policy; the rate-limit branch instead returns rate_limit_delay*(attempt+1),
which the cap does not apply to. -/
theorem get_delay_bounds :
    defaultRetryPolicy.get_delay 0 false = defaultRetryPolicy.initial_delay_seconds ∧
      (∀ (p : RetryPolicy) (attempt : Nat),
        p.get_delay attempt false ≤ p.max_delay_seconds) ∧
      (∀ (p : RetryPolicy) (attempt : Nat),
        p.get_delay attempt true = p.rate_limit_delay_seconds * (attempt + 1)) := by
  refine ⟨?_, ?_, ?_⟩
  · norm_num [RetryPolicy.get_delay, defaultRetryPolicy]
  · intro p attempt
    simp [RetryPolicy.get_delay]
  · intro p attempt
    simp [RetryPolicy.get_delay]

/-- ExecutionState from orchestrator/state_machine.py. -/
inductive ExecutionState where
  | PENDING
  | ANALYZING
  | ASSESSING
  | PLANNING
  | GENERATING
  | REVIEWING
  | VALIDATING
  | COMPLETE
  | FAILED
deriving DecidableEq, Repr

/-- The .name of a state, as interpolated into error messages. -/
def stateName : ExecutionState → String
  | .PENDING => "PENDING"
  | .ANALYZING => "ANALYZING"
  | .ASSESSING => "ASSESSING"
  | .PLANNING => "PLANNING"
  | .GENERATING => "GENERATING"
  | .REVIEWING => "REVIEWING"
  | .VALIDATING => "VALIDATING"
  | .COMPLETE => "COMPLETE"
  | .FAILED => "FAILED"

/-- ExecutionContext from orchestrator/state_machine.py: the mutable record
threaded between agents. -/
structure ExecutionContext where
  issue_id : String
  issue_url : String
  repository : String
  issue_analysis : PyDict := []
  impact_assessment : PyDict := []
  execution_plan : PyDict := []
  generated_patch : PyDict := []
  review_result : PyDict := []
  validation_result : PyDict := []
  tokens_used : Int := 0
  retry_count : Int := 0
  errors : List String := []
deriving DecidableEq, Repr

/-- Guard has_issue_analysis: bool(context.issue_analysis.get("summary")). -/
def has_issue_analysis (context : ExecutionContext) : Bool :=
  pyTruthy (pyGet context.issue_analysis "summary" .pynone)

/-- Guard has_impact_assessment: bool(context.impact_assessment.get("severity")). -/
def has_impact_assessment (context : ExecutionContext) : Bool :=
  pyTruthy (pyGet context.impact_assessment "severity" .pynone)

/-- Guard has_execution_plan: bool(context.execution_plan.get("plan_summary")). -/
def has_execution_plan (context : ExecutionContext) : Bool :=
  pyTruthy (pyGet context.execution_plan "plan_summary" .pynone)

/-- Guard has_generated_patches: bool(context.generated_patch.get("patches")). -/
def has_generated_patches (context : ExecutionContext) : Bool :=
  pyTruthy (pyGet context.generated_patch "patches" .pynone)

/-- Guard review_passed: not context.review_result.get("requires_changes", False). -/
def review_passed (context : ExecutionContext) : Bool :=
  !(pyTruthy (pyGet context.review_result "requires_changes" (.pybool false)))

/-- Guard validation_passed:
context.validation_result.get("tests_passed", False) is not False. -/
def validation_passed (context : ExecutionContext) : Bool :=
  !(isLiteralFalse (pyGet context.validation_result "tests_passed" (.pybool false)))

/-- Guard retry_code_generation: context.retry_count < 3. -/
def retry_code_generation (context : ExecutionContext) : Bool :=
  decide (context.retry_count < 3)

/-- Guard token_budget_ok: context.tokens_used < 100000. -/
def token_budget_ok (context : ExecutionContext) : Bool :=
  decide (context.tokens_used < 100000)

/-- StateTransition: a declared edge with an optional condition text and an
optional guard predicate on the context. -/
structure StateTransition where
  from_state : ExecutionState
  to_state : ExecutionState
  condition : Option String := none
  guard : Option (ExecutionContext → Bool) := none

/-- VALID_TRANSITIONS, in source order: the linear forward flow, the two
rework edges, then the failure edges from every working state. -/
def VALID_TRANSITIONS : List StateTransition := [
  ⟨.PENDING, .ANALYZING, none, some token_budget_ok⟩,
  ⟨.ANALYZING, .ASSESSING, none, some has_issue_analysis⟩,
  ⟨.ASSESSING, .PLANNING, none, some has_impact_assessment⟩,
  ⟨.PLANNING, .GENERATING, none, some has_execution_plan⟩,
  ⟨.GENERATING, .REVIEWING, none, some has_generated_patches⟩,
  ⟨.REVIEWING, .VALIDATING, none, some review_passed⟩,
  ⟨.VALIDATING, .COMPLETE, none, some validation_passed⟩,
  ⟨.REVIEWING, .GENERATING, some "code review failed", some retry_code_generation⟩,
  ⟨.VALIDATING, .GENERATING, some "tests failed", some retry_code_generation⟩,
  ⟨.ANALYZING, .FAILED, none, none⟩,
  ⟨.ASSESSING, .FAILED, none, none⟩,
  ⟨.PLANNING, .FAILED, none, none⟩,
  ⟨.GENERATING, .FAILED, none, none⟩,
  ⟨.REVIEWING, .FAILED, none, none⟩,
  ⟨.VALIDATING, .FAILED, none, none⟩]

/-- StateMachine: current state plus its history list. -/
structure StateMachine where
  current_state : ExecutionState
  state_history : List ExecutionState
deriving DecidableEq, Repr

/-- A fresh StateMachine, as built by StateMachine.__init__. -/
def mkStateMachine : StateMachine :=
  { current_state := .PENDING, state_history := [.PENDING] }

/-- The transition map built by _build_transition_map: grouping the list by
from_state preserves the declaration order within each source state, so the
lookup is a filter of VALID_TRANSITIONS. -/
def transitionsFrom (s : ExecutionState) : List StateTransition :=
  VALID_TRANSITIONS.filter (fun t => t.from_state == s)

/-- StateMachine.can_transition_to: the first edge to the target decides; its
guard is evaluated only when a context is supplied. -/
def StateMachine.can_transition_to (sm : StateMachine) (target_state : ExecutionState)
    (context : Option ExecutionContext) : Bool :=
  match (transitionsFrom sm.current_state).find? (fun t => t.to_state == target_state) with
  | some t =>
    match t.guard, context with
    | some g, some c => g c
    | _, _ => true
  | none => false

/-- StateMachine._check_guard_only: evaluate the guard of the first edge to the
target that has one; True when no guarded edge matches. -/
def StateMachine.check_guard_only (sm : StateMachine) (target_state : ExecutionState)
    (context : ExecutionContext) : Bool :=
  match (transitionsFrom sm.current_state).find?
      (fun t => t.to_state == target_state && t.guard.isSome) with
  | some t =>
    match t.guard with
    | some g => g context
    | none => true
  | none => true

/-- StateMachine.transition_to: raises (as an Except.error carrying the message)
when the transition is denied — distinguishing a failing guard from a missing
edge — and otherwise appends to the history and updates the current state.
The state is only mutated after the check succeeds. -/
def StateMachine.transition_to (sm : StateMachine) (target_state : ExecutionState)
    (context : Option ExecutionContext) : Except String StateMachine :=
  if sm.can_transition_to target_state context then
    .ok { current_state := target_state, state_history := sm.state_history ++ [target_state] }
  else
    match context with
    | some c =>
      if !(sm.check_guard_only target_state c) then
        .error ("Transition guard failed: " ++ stateName sm.current_state ++ " to " ++
          stateName target_state)
      else
        .error ("Cannot transition from " ++ stateName sm.current_state ++ " to " ++
          stateName target_state)
    | none =>
      .error ("Cannot transition from " ++ stateName sm.current_state ++ " to " ++
        stateName target_state)

/-- StateMachine.reset. -/
def StateMachine.reset (_sm : StateMachine) : StateMachine :=
  { current_state := .PENDING, state_history := [.PENDING] }

/-- StateMachine.is_terminal. -/
def StateMachine.is_terminal (sm : StateMachine) : Bool :=
  sm.current_state == .COMPLETE || sm.current_state == .FAILED

/-- StateMachine.get_next_agent: the worker name for the current state. -/
def StateMachine.get_next_agent (sm : StateMachine) : Option String :=
  match sm.current_state with
  | .ANALYZING => some "issue_intelligence"
  | .ASSESSING => some "impact_assessment"
  | .PLANNING => some "planner"
  | .GENERATING => some "code_generator"
  | .REVIEWING => some "pr_reviewer"
  | .VALIDATING => some "validator"
  | _ => none

/-- Is (a, b) an edge declared in VALID_TRANSITIONS? -/
def edgeExists (a b : ExecutionState) : Bool :=
  VALID_TRANSITIONS.any (fun t => t.from_state == a && t.to_state == b)

/-- An operation on a StateMachine: an attempted transition (with an optional
context) or a reset. -/
inductive SMOp where
  | trans (target : ExecutionState) (context : Option ExecutionContext)
  | reset

/-- Apply one operation; a transition that raises leaves the machine unchanged,
since transition_to mutates only after its validity check passes. -/
def applySMOp (sm : StateMachine) : SMOp → StateMachine
  | .trans t c =>
    match sm.transition_to t c with
    | .ok sm2 => sm2
    | .error _ => sm
  | .reset => sm.reset

/-- Apply a sequence of operations to a machine. -/
def applySMOps (sm : StateMachine) (ops : List SMOp) : StateMachine :=
  ops.foldl applySMOp sm

/-- Every consecutive pair in the list is a declared edge. -/
def historyChain : List ExecutionState → Bool
  | [] => true
  | [_] => true
  | a :: b :: rest => edgeExists a b && historyChain (b :: rest)

/-- The history invariant of claim C10: non-empty history starting at PENDING,
ending at the current state, with every consecutive pair a declared edge. -/
def smInvariantB (sm : StateMachine) : Bool :=
  !sm.state_history.isEmpty &&
    (sm.state_history.head? == some .PENDING) &&
    (sm.state_history.getLast? == some sm.current_state) &&
    historyChain sm.state_history

theorem can_transition_edge {sm : StateMachine} {t : ExecutionState}
    {c : Option ExecutionContext} (h : sm.can_transition_to t c = true) :
    edgeExists sm.current_state t = true := by
  unfold StateMachine.can_transition_to at h
  rcases hf : (transitionsFrom sm.current_state).find? (fun tr => tr.to_state == t)
    with _ | tr
  · rw [hf] at h
    simp at h
  · have hmem := List.mem_of_find?_eq_some hf
    have hto := List.find?_some hf
    have hmem2 := List.mem_filter.mp hmem
    unfold edgeExists
    rw [List.any_eq_true]
    refine ⟨tr, hmem2.1, ?_⟩
    have h1 : tr.from_state == sm.current_state := hmem2.2
    simp only [Bool.and_eq_true, beq_iff_eq] at h1 hto ⊢
    exact ⟨h1, hto⟩

theorem historyChain_append : ∀ (l : List ExecutionState) (a b : ExecutionState),
    historyChain l = true → l.getLast? = some a → edgeExists a b = true →
    historyChain (l ++ [b]) = true
  | [], _, _, _, hl, _ => by simp at hl
  | [x], a, b, _, hl, he => by
    simp at hl
    subst hl
    simp [historyChain, he]
  | x :: y :: ys, a, b, hc, hl, he => by
    simp only [historyChain, Bool.and_eq_true] at hc
    have hl2 : (y :: ys).getLast? = some a := by
      rw [List.getLast?_cons_cons] at hl
      exact hl
    have := historyChain_append (y :: ys) a b hc.2 hl2 he
    simp only [List.cons_append, historyChain, Bool.and_eq_true]
    exact ⟨hc.1, by simpa using this⟩

theorem transition_to_ok {sm sm2 : StateMachine} {t : ExecutionState}
    {c : Option ExecutionContext} (h : sm.transition_to t c = .ok sm2) :
    sm.can_transition_to t c = true ∧
      sm2 = { current_state := t, state_history := sm.state_history ++ [t] } := by
  unfold StateMachine.transition_to at h
  by_cases hc : sm.can_transition_to t c = true
  · rw [if_pos hc] at h
    exact ⟨hc, by injection h with h2; exact h2.symm⟩
  · rw [if_neg hc] at h
    split at h
    · split at h <;> simp at h
    · simp at h

theorem smInvariantB_iff (sm : StateMachine) : smInvariantB sm = true ↔
    (sm.state_history ≠ [] ∧ sm.state_history.head? = some .PENDING ∧
      sm.state_history.getLast? = some sm.current_state ∧
      historyChain sm.state_history = true) := by
  simp [smInvariantB, and_assoc]

theorem head?_append_singleton {l : List ExecutionState} (b : ExecutionState)
    (h : l ≠ []) : (l ++ [b]).head? = l.head? := by
  rcases l with _ | ⟨x, xs⟩
  · exact absurd rfl h
  · rfl

theorem applySMOp_inv (sm : StateMachine) (op : SMOp) (h : smInvariantB sm = true) :
    smInvariantB (applySMOp sm op) = true := by
  rcases op with ⟨t, c⟩ | _
  · show smInvariantB
      (match sm.transition_to t c with
        | .ok sm2 => sm2
        | .error _ => sm) = true
    rcases ht : sm.transition_to t c with e | sm2
    · exact h
    · obtain ⟨hcan, hsm2⟩ := transition_to_ok ht
      subst hsm2
      rw [smInvariantB_iff] at h ⊢
      obtain ⟨hne, hhd, hlast, hchain⟩ := h
      refine ⟨by simp, ?_, ?_, ?_⟩
      · rw [head?_append_singleton t hne]
        exact hhd
      · simp [List.getLast?_concat]
      · exact historyChain_append _ _ _ hchain hlast (can_transition_edge hcan)
  · rfl

/-- Claim C10: after any sequence of transition and reset operations starting
from a fresh StateMachine, the history is non-empty, starts at PENDING, ends at
the current state, and every consecutive pair of entries is an edge declared in
VALID_TRANSITIONS; moreover a transition_to that raises leaves the machine
unchanged. -/
theorem state_machine_history_invariant :
    (∀ ops : List SMOp, smInvariantB (applySMOps mkStateMachine ops) = true) ∧
      (∀ (sm : StateMachine) (t : ExecutionState) (c : Option ExecutionContext) (e : String),
        sm.transition_to t c = .error e → applySMOp sm (.trans t c) = sm) := by
  constructor
  · intro ops
    have hrec : ∀ (l : List SMOp) (sm : StateMachine), smInvariantB sm = true →
        smInvariantB (applySMOps sm l) = true := by
      intro l
      induction l with
      | nil => intro sm h; exact h
      | cons op rest ih =>
        intro sm h
        exact ih _ (applySMOp_inv sm op h)
    exact hrec ops mkStateMachine (by rfl)
  · intro sm t c e he
    show (match sm.transition_to t c with
      | .ok sm2 => sm2
      | .error _ => sm) = sm
    rw [he]

/-- Claim C10 witness: the invariant checked after a concrete operation
sequence (including a denied transition and a reset), and the
unchanged-machine clause applied at a concrete refused transition. -/
theorem state_machine_history_invariant_witness :
    smInvariantB (applySMOps mkStateMachine
      [.trans .ANALYZING none, .trans .COMPLETE none, .trans .ASSESSING none, .reset,
        .trans .ANALYZING none]) = true ∧
      applySMOp mkStateMachine (.trans .COMPLETE none) = mkStateMachine :=
  ⟨state_machine_history_invariant.1
      [.trans .ANALYZING none, .trans .COMPLETE none, .trans .ASSESSING none, .reset,
        .trans .ANALYZING none],
    state_machine_history_invariant.2 mkStateMachine .COMPLETE none
      "Cannot transition from PENDING to COMPLETE" rfl⟩

/-- Trace events the engine emits (the subset our claims inspect). -/
inductive TraceEvent where
  | execution_started (issue_url : String)
  | agent_started (agent : String) (attempt : Nat)
  | agent_completed (agent : String)
  | execution_failed (error : String)
  | trace_completed (status : String)
deriving DecidableEq, Repr

/-- The mutable pieces of an in-flight process_issue call: the orchestrator's
state machine, the context object, the tracer's event list, a per-run counter
of agent.execute invocations (feeding the worker behaviour), and a ghost log
of every value context.tokens_used has taken, newest first (tokens_used is
mutated at exactly one site, _update_context). -/
structure RunState where
  sm : StateMachine
  ctx : ExecutionContext
  events : List TraceEvent
  calls : Nat
  tokensLog : List Int
deriving DecidableEq, Repr

/-- A stage-worker registry behaviour: given the agent name, the index of this
agent.execute invocation within the run, and the context, the worker either
returns its result dict or raises. -/
abbrev WorkerBehavior := String → Nat → ExecutionContext → Except PyErr PyDict

/-- The orchestrator configuration: the registered agent names and the
policy manager. -/
structure OrchestratorConfig where
  agents : List String
  policy_manager : PolicyManager

/-- The six worker names of the full registry, in pipeline order. -/
def fullAgentRegistry : List String :=
  ["issue_intelligence", "impact_assessment", "planner", "code_generator",
    "pr_reviewer", "validator"]

/-- result.get("tokens_used", 0), as the integer Python's += then consumes
(behaviours in scope report integers there). -/
def resultTokens (result : PyDict) : Int :=
  match pyGet result "tokens_used" (.pyint 0) with
  | .pyint n => n
  | _ => 0

/-- Orchestrator._update_context: store the result dict in the slot named by
context_mapping and add result.get("tokens_used", 0) to the counter. -/
def update_context (agent_name : String) (context : ExecutionContext) (result : PyDict) :
    ExecutionContext :=
  let context2 :=
    if agent_name == "issue_intelligence" then { context with issue_analysis := result }
    else if agent_name == "impact_assessment" then { context with impact_assessment := result }
    else if agent_name == "planner" then { context with execution_plan := result }
    else if agent_name == "code_generator" then { context with generated_patch := result }
    else if agent_name == "pr_reviewer" then { context with review_result := result }
    else if agent_name == "validator" then { context with validation_result := result }
    else context
  { context2 with tokens_used := context2.tokens_used + resultTokens result }

/-- The code after _execute_agent's retry loop: append the stage error to
context.errors, then raise AgentExecutionError. -/
def agentRaise (agent_name : String) (st : RunState) (attempt : Nat)
    (last_error : Option PyErr) : RunState × Option PyErr :=
  let lastMsg := match last_error with
    | some e => e.msg
    | none => "None"
  let st2 := { st with ctx := { st.ctx with
    errors := st.ctx.errors ++ [agent_name ++ ": " ++ lastMsg] } }
  (st2, some ⟨.agentExecutionError,
    "Agent " ++ agent_name ++ " failed after " ++ toString attempt ++ " attempts: " ++ lastMsg⟩)

/-- Outcome of one iteration of the _execute_agent while-loop body. -/
inductive AgentIterResult where
  | done (st : RunState)
  | retryNext (st : RunState) (e : PyErr)
  | raiseNow (st : RunState) (e : PyErr)
deriving DecidableEq, Repr

/-- The run state carried by an AgentIterResult. -/
def AgentIterResult.state : AgentIterResult → RunState
  | .done st => st
  | .retryNext st _ => st
  | .raiseNow st _ => st

/-- One iteration of the _execute_agent while-loop body (entered when
attempt ≤ max_retries holds). It checks the token budget — a failure raises
BudgetExceededError into the iteration's own except clause, before
agent_started is emitted — then emits agent_started, runs the worker, and on
success stores the result via _update_context and emits agent_completed
(done). On an exception the except clause consults should_retry: retryNext
bumps context.retry_count (the sleep on get_delay has no further effect on the
run and is dropped) and raiseNow breaks out of the loop. -/
def agentIter (cfg : OrchestratorConfig) (beh : WorkerBehavior) (agent_name : String)
    (st : RunState) (attempt : Nat) : AgentIterResult :=
  if cfg.policy_manager.budget.check_token_budget st.ctx.tokens_used
      cfg.policy_manager.budget.max_tokens_per_agent then
    let st1 := { st with
      events := st.events ++ [.agent_started agent_name attempt],
      calls := st.calls + 1 }
    match beh agent_name st.calls st.ctx with
    | .ok result =>
      let ctx2 := update_context agent_name st1.ctx result
      .done { st1 with
        ctx := ctx2,
        events := st1.events ++ [.agent_completed agent_name],
        tokensLog := ctx2.tokens_used :: st1.tokensLog }
    | .error e =>
      if cfg.policy_manager.retry.should_retry attempt e then
        .retryNext { st1 with ctx := { st1.ctx with
          retry_count := st1.ctx.retry_count + 1 } } e
      else
        .raiseNow st1 e
  else
    let e : PyErr := ⟨.budgetExceeded, "Token budget exceeded"⟩
    if cfg.policy_manager.retry.should_retry attempt e then
      .retryNext { st with ctx := { st.ctx with
        retry_count := st.ctx.retry_count + 1 } } e
    else
      .raiseNow st e

/-- The while-loop of Orchestrator._execute_agent. The loop runs while
attempt ≤ max_retries and attempt grows by one per iteration, so
max_retries + 1 - attempt more iterations remain; fuelA is that count (callers
pass max_retries + 1 with attempt 0), which makes the recursion faithful to
the loop condition. Returns the updated run state and the exception
_execute_agent raises, if any: when an iteration breaks, and when the loop
condition fails, the post-loop code appends the stage error to context.errors
and raises AgentExecutionError (agentRaise). -/
def executeAgentLoop (cfg : OrchestratorConfig) (beh : WorkerBehavior) (agent_name : String) :
    Nat → RunState → Nat → Option PyErr → RunState × Option PyErr
  | 0, st, attempt, last_error => agentRaise agent_name st attempt last_error
  | fuelA + 1, st, attempt, last_error =>
    if attempt ≤ cfg.policy_manager.retry.max_retries then
      match agentIter cfg beh agent_name st attempt with
      | .done st2 => (st2, none)
      | .retryNext st2 e => executeAgentLoop cfg beh agent_name fuelA st2 (attempt + 1) (some e)
      | .raiseNow st2 e => agentRaise agent_name st2 attempt (some e)
    else agentRaise agent_name st attempt last_error

/-- The next_state_map of Orchestrator._advance_state. -/
def nextStateMap : ExecutionState → Option ExecutionState
  | .ANALYZING => some .ASSESSING
  | .ASSESSING => some .PLANNING
  | .PLANNING => some .GENERATING
  | .GENERATING => some .REVIEWING
  | .REVIEWING => some .VALIDATING
  | .VALIDATING => some .COMPLETE
  | _ => none

/-- Orchestrator._advance_state. NOTE (faithful to the source): every
transition_to call here passes no context, so can_transition_to never
evaluates a guard on these paths. -/
def advance_state (sm : StateMachine) (context : ExecutionContext) : Except String StateMachine :=
  if sm.current_state == .REVIEWING &&
      pyTruthy (pyGet context.review_result "requires_changes" (.pybool false)) then
    sm.transition_to .GENERATING none
  else if sm.current_state == .VALIDATING &&
      isLiteralFalse (pyGet context.validation_result "tests_passed" (.pybool false)) then
    sm.transition_to .GENERATING none
  else
    match nextStateMap sm.current_state with
    | some next_state => sm.transition_to next_state none
    | none => .ok sm

/-- Outcome of the process_issue while-loop. -/
inductive LoopOutcome where
  | exited (st : RunState)
  | excRaised (e : PyErr) (st : RunState)
  | stillRunning (st : RunState)
deriving DecidableEq, Repr

/-- The while-loop of process_issue, one fuel unit per iteration: while the
machine is not terminal, look up the worker for the current state — a missing
worker logs and transitions straight to FAILED — execute it under retry, and
advance the state machine. Any exception escaping the body (the
AgentExecutionError from the retry loop, or an InvalidTransitionError from a
transition) propagates to process_issue's except handler as excRaised. -/
def processLoop (cfg : OrchestratorConfig) (beh : WorkerBehavior) :
    Nat → RunState → LoopOutcome
  | 0, st => .stillRunning st
  | fuel + 1, st =>
    if st.sm.is_terminal then .exited st
    else
      match st.sm.get_next_agent with
      | some agent_name =>
        if agent_name ∈ cfg.agents then
          match executeAgentLoop cfg beh agent_name
              (cfg.policy_manager.retry.max_retries + 1) st 0 none with
          | (st2, some e) => .excRaised e st2
          | (st2, none) =>
            match advance_state st2.sm st2.ctx with
            | .ok sm2 => processLoop cfg beh fuel { st2 with sm := sm2 }
            | .error msg => .excRaised ⟨.otherError, msg⟩ st2
        else
          match st.sm.transition_to .FAILED none with
          | .ok sm2 => processLoop cfg beh fuel { st with sm := sm2 }
          | .error msg => .excRaised ⟨.otherError, msg⟩ st
      | none =>
        match st.sm.transition_to .FAILED none with
        | .ok sm2 => processLoop cfg beh fuel { st with sm := sm2 }
        | .error msg => .excRaised ⟨.otherError, msg⟩ st

/-- Helper for issue_url.split("/")[-1]: the text after the last slash (the
whole string when no slash occurs). -/
def lastSegAux : List Char → List Char → List Char
  | [], acc => acc
  | c :: cs, acc => if c == '/' then lastSegAux cs [] else lastSegAux cs (acc ++ [c])

/-- issue_url.split("/")[-1]. -/
def lastUrlSegment (s : String) : String := String.mk (lastSegAux s.data [])

/-- Result of one process_issue call: the returned context and final machine
(finished), an exception escaping to the caller (raised), or fuel exhaustion
with the loop still running. -/
inductive RunResult where
  | finished (st : RunState)
  | raised (msg : String) (st : RunState)
  | outOfFuel (st : RunState)
deriving DecidableEq, Repr

/-- The except-handler of process_issue: append str(e) to context.errors, emit
execution_failed, complete the trace as failed, and transition the machine to
FAILED; if that transition itself raises, the new exception escapes
process_issue. -/
def processHandler (e : PyErr) (st : RunState) : RunResult :=
  let st2 := { st with
    ctx := { st.ctx with errors := st.ctx.errors ++ [e.msg] },
    events := st.events ++ [TraceEvent.execution_failed e.msg, TraceEvent.trace_completed "failed"] }
  match st2.sm.transition_to .FAILED none with
  | .ok sm2 => .finished { st2 with sm := sm2 }
  | .error msg => .raised msg st2

/-- Orchestrator.process_issue on a fresh orchestrator: build the context,
start the trace, transition to ANALYZING, and drive the agent pipeline; any
exception is caught once by the handler. fuel bounds the number of
while-loop iterations only. -/
def process_issue (cfg : OrchestratorConfig) (beh : WorkerBehavior)
    (issue_url repository : String) (fuel : Nat) : RunResult :=
  let issue_id := lastUrlSegment issue_url
  let context : ExecutionContext :=
    { issue_id := issue_id, issue_url := issue_url, repository := repository }
  let st0 : RunState := {
    sm := mkStateMachine,
    ctx := context,
    events := [TraceEvent.execution_started issue_url],
    calls := 0,
    tokensLog := [0] }
  match st0.sm.transition_to .ANALYZING none with
  | .error msg => processHandler ⟨.otherError, msg⟩ st0
  | .ok sm1 =>
    match processLoop cfg beh fuel { st0 with sm := sm1 } with
    | .exited st =>
      let status := if st.sm.current_state == .COMPLETE then "success" else "failed"
      .finished { st with events := st.events ++ [.trace_completed status] }
    | .excRaised e st => processHandler e st
    | .stillRunning st => .outOfFuel st

/-- The default orchestrator: full registry and default policies. -/
def defaultConfig : OrchestratorConfig :=
  { agents := fullAgentRegistry, policy_manager := {} }

/-- An orchestrator configured with the per-task token cap lowered to 1000
(the E4 scenario configuration); everything else keeps its default. -/
def smallBudgetConfig : OrchestratorConfig :=
  { agents := fullAgentRegistry,
    policy_manager := { budget := { max_tokens_per_issue := 1000 } } }

/-- Workers that all succeed; the reviewer raises ConnectionError on its first
three calls (global call indices 4, 5, 6), then flags requires_changes on its
fourth, and approves from its fifth call on; the validator passes. -/
def behReworkAfterRetries : WorkerBehavior := fun name i _ctx =>
  if name == "issue_intelligence" then
    .ok [("summary", .pystr "s"), ("tokens_used", .pyint 10)]
  else if name == "impact_assessment" then
    .ok [("severity", .pystr "high"), ("tokens_used", .pyint 10)]
  else if name == "planner" then
    .ok [("plan_summary", .pystr "p"), ("tokens_used", .pyint 10)]
  else if name == "code_generator" then
    .ok [("patches", .pystr "diff"), ("tokens_used", .pyint 10)]
  else if name == "pr_reviewer" then
    if i ≤ 6 then .error ⟨.connectionError, "conn reset"⟩
    else if i == 7 then .ok [("requires_changes", .pybool true), ("tokens_used", .pyint 10)]
    else .ok [("requires_changes", .pybool false), ("tokens_used", .pyint 10)]
  else if name == "validator" then
    .ok [("tests_passed", .pybool true), ("tokens_used", .pyint 10)]
  else .error ⟨.otherError, "unknown agent"⟩

/-- Workers that all succeed with zero token reports; the validator reports
tests_passed false on every call, so every Validate visit selects rework. -/
def behEndlessRework : WorkerBehavior := fun name _i _ctx =>
  if name == "issue_intelligence" then .ok [("summary", .pystr "s")]
  else if name == "impact_assessment" then .ok [("severity", .pystr "high")]
  else if name == "planner" then .ok [("plan_summary", .pystr "p")]
  else if name == "code_generator" then .ok [("patches", .pystr "diff")]
  else if name == "pr_reviewer" then .ok [("requires_changes", .pybool false)]
  else if name == "validator" then .ok [("tests_passed", .pybool false)]
  else .error ⟨.otherError, "unknown agent"⟩

/-- Workers where the Analyze stage reports tokens_used = 1500 and every later
stage would succeed with zero tokens. -/
def behAnalyzeBig : WorkerBehavior := fun name _i _ctx =>
  if name == "issue_intelligence" then
    .ok [("summary", .pystr "s"), ("tokens_used", .pyint 1500)]
  else if name == "impact_assessment" then .ok [("severity", .pystr "high")]
  else if name == "planner" then .ok [("plan_summary", .pystr "p")]
  else if name == "code_generator" then .ok [("patches", .pystr "diff")]
  else if name == "pr_reviewer" then .ok [("requires_changes", .pybool false)]
  else if name == "validator" then .ok [("tests_passed", .pybool true)]
  else .error ⟨.otherError, "unknown agent"⟩

/-- Workers where the Analyze stage reports tokens_used = 150000 (a
non-negative report) and every later stage would succeed with zero tokens. -/
def behAnalyzeHuge : WorkerBehavior := fun name _i _ctx =>
  if name == "issue_intelligence" then
    .ok [("summary", .pystr "s"), ("tokens_used", .pyint 150000)]
  else if name == "impact_assessment" then .ok [("severity", .pystr "high")]
  else if name == "planner" then .ok [("plan_summary", .pystr "p")]
  else if name == "code_generator" then .ok [("patches", .pystr "diff")]
  else if name == "pr_reviewer" then .ok [("requires_changes", .pybool false)]
  else if name == "validator" then .ok [("tests_passed", .pybool true)]
  else .error ⟨.otherError, "unknown agent"⟩

/-- Well-behaved workers (the happy path of scenario E1, zero-token variant). -/
def behHappy : WorkerBehavior := fun name _i _ctx =>
  if name == "issue_intelligence" then .ok [("summary", .pystr "s")]
  else if name == "impact_assessment" then .ok [("severity", .pystr "high")]
  else if name == "planner" then .ok [("plan_summary", .pystr "p")]
  else if name == "code_generator" then .ok [("patches", .pystr "diff")]
  else if name == "pr_reviewer" then .ok [("requires_changes", .pybool false)]
  else if name == "validator" then .ok [("tests_passed", .pybool true)]
  else .error ⟨.otherError, "unknown agent"⟩

/-- The registry with the validator worker missing. -/
def registryNoValidator : OrchestratorConfig :=
  { agents := ["issue_intelligence", "impact_assessment", "planner", "code_generator",
      "pr_reviewer"],
    policy_manager := {} }

/-- The run state carried by a RunResult. -/
def RunResult.endState : RunResult → RunState
  | .finished st => st
  | .raised _ st => st
  | .outOfFuel st => st

/-- Did process_issue raise to its caller? -/
def RunResult.isRaised : RunResult → Bool
  | .raised _ _ => true
  | _ => false

/-- Did process_issue return a context? -/
def RunResult.isFinished : RunResult → Bool
  | .finished _ => true
  | _ => false

/-- Did the fuel run out with the loop still going? -/
def RunResult.isOutOfFuel : RunResult → Bool
  | .outOfFuel _ => true
  | _ => false

/-- The run state carried by a LoopOutcome. -/
def LoopOutcome.state : LoopOutcome → RunState
  | .exited st => st
  | .excRaised _ st => st
  | .stillRunning st => st

/-- The six working states, between PENDING and the terminal states. -/
def workingStates : List ExecutionState :=
  [.ANALYZING, .ASSESSING, .PLANNING, .GENERATING, .REVIEWING, .VALIDATING]

theorem can_transition_none (sm : StateMachine) (t : ExecutionState) :
    sm.can_transition_to t none = edgeExists sm.current_state t := by
  unfold StateMachine.can_transition_to
  rcases hf : (transitionsFrom sm.current_state).find? (fun tr => tr.to_state == t)
    with _ | tr
  · have hnone := List.find?_eq_none.mp hf
    by_cases he : edgeExists sm.current_state t = true
    · exfalso
      unfold edgeExists at he
      rw [List.any_eq_true] at he
      obtain ⟨tr2, hmem, hp⟩ := he
      simp only [Bool.and_eq_true, beq_iff_eq] at hp
      have hmem2 : tr2 ∈ transitionsFrom sm.current_state := by
        unfold transitionsFrom
        rw [List.mem_filter]
        exact ⟨hmem, by simp [hp.1]⟩
      have := hnone tr2 hmem2
      simp [hp.2] at this
    · simp only [Bool.not_eq_true] at he
      rw [hf, he]
  · have hmem := List.mem_of_find?_eq_some hf
    have hto := List.find?_some hf
    have hmem2 := List.mem_filter.mp hmem
    have he : edgeExists sm.current_state t = true := by
      unfold edgeExists
      rw [List.any_eq_true]
      refine ⟨tr, hmem2.1, ?_⟩
      simp only [Bool.and_eq_true, beq_iff_eq] at hto ⊢
      refine ⟨?_, hto⟩
      have := hmem2.2
      simp only [beq_iff_eq] at this
      exact this
    rw [hf, he]
    obtain ⟨f1, t1, c1, g1⟩ := tr
    rcases g1 with _ | g <;> rfl

theorem transition_none_ok (sm : StateMachine) (t : ExecutionState)
    (h : edgeExists sm.current_state t = true) :
    sm.transition_to t none =
      .ok { current_state := t, state_history := sm.state_history ++ [t] } := by
  unfold StateMachine.transition_to
  rw [if_pos]
  rw [can_transition_none, h]

/-- Packaging transition_none_ok for targets that are neither PENDING nor
FAILED. -/
theorem advance_target_ok (sm : StateMachine) (t : ExecutionState)
    (he : edgeExists sm.current_state t = true) (h1 : t ≠ .PENDING) (h2 : t ≠ .FAILED) :
    ∃ sm2, sm.transition_to t none = Except.ok sm2 ∧
      sm2.current_state ≠ .PENDING ∧ sm2.current_state ≠ .FAILED :=
  ⟨_, transition_none_ok sm t he, h1, h2⟩

/-- _advance_state never raises from a working state, and its target is never
PENDING or FAILED: every branch passes no context, so guards are skipped and
the chosen edge always exists. -/
theorem advance_state_ok (sm : StateMachine) (ctx : ExecutionContext)
    (h : sm.current_state ∈ workingStates) :
    ∃ sm2, advance_state sm ctx = .ok sm2 ∧ sm2.current_state ≠ .PENDING ∧
      sm2.current_state ≠ .FAILED := by
  unfold advance_state
  simp only [workingStates, List.mem_cons, List.mem_singleton, List.not_mem_nil, or_false] at h
  rcases h with h | h | h | h | h | h <;>
    rw [h] <;>
    split_ifs with h1 h2 <;>
    first
      | (simp at h1; done)
      | (simp at h2; done)
      | (exact advance_target_ok sm _ (by rw [h]; decide) (by decide) (by decide))

theorem agentRaise_sm (n : String) (st : RunState) (a : Nat) (le : Option PyErr) :
    (agentRaise n st a le).1.sm = st.sm := rfl

theorem agentRaise_tokens (n : String) (st : RunState) (a : Nat) (le : Option PyErr) :
    (agentRaise n st a le).1.ctx.tokens_used = st.ctx.tokens_used := rfl

theorem agentRaise_log (n : String) (st : RunState) (a : Nat) (le : Option PyErr) :
    (agentRaise n st a le).1.tokensLog = st.tokensLog := rfl

theorem agentRaise_errors (n : String) (st : RunState) (a : Nat) (le : Option PyErr) :
    (agentRaise n st a le).1.ctx.errors ≠ [] := by
  simp [agentRaise]

theorem agentRaise_raises (n : String) (st : RunState) (a : Nat) (le : Option PyErr) :
    (agentRaise n st a le).2.isSome = true := rfl

theorem update_context_tokens (name : String) (ctx : ExecutionContext) (r : PyDict) :
    (update_context name ctx r).tokens_used = ctx.tokens_used + resultTokens r := by
  unfold update_context
  split_ifs <;> rfl

theorem agentIter_sm (cfg : OrchestratorConfig) (beh : WorkerBehavior) (name : String)
    (st : RunState) (attempt : Nat) :
    (agentIter cfg beh name st attempt).state.sm = st.sm := by
  unfold agentIter
  split
  · dsimp only
    rcases hb : beh name st.calls st.ctx with e | r
    · dsimp only
      split <;> rfl
    · rfl
  · dsimp only
    split <;> rfl

theorem executeAgentLoop_sm (cfg : OrchestratorConfig) (beh : WorkerBehavior) (name : String) :
    ∀ (fuelA : Nat) (st : RunState) (attempt : Nat) (le : Option PyErr),
      (executeAgentLoop cfg beh name fuelA st attempt le).1.sm = st.sm
  | 0, st, attempt, le => agentRaise_sm name st attempt le
  | fuelA + 1, st, attempt, le => by
    unfold executeAgentLoop
    split
    · rcases hai : agentIter cfg beh name st attempt with st2 | ⟨st2, e⟩ | ⟨st2, e⟩ <;>
        have hsm := agentIter_sm cfg beh name st attempt <;>
        rw [hai] at hsm
      · exact hsm
      · rw [executeAgentLoop_sm cfg beh name fuelA st2 (attempt + 1) (some e)]
        exact hsm
      · rw [agentRaise_sm]
        exact hsm
    · exact agentRaise_sm name st attempt le

theorem executeAgentLoop_raise_errors (cfg : OrchestratorConfig) (beh : WorkerBehavior)
    (name : String) : ∀ (fuelA : Nat) (st : RunState) (attempt : Nat) (le : Option PyErr),
      (executeAgentLoop cfg beh name fuelA st attempt le).2.isSome = true →
      (executeAgentLoop cfg beh name fuelA st attempt le).1.ctx.errors ≠ []
  | 0, st, attempt, le => fun _ => agentRaise_errors name st attempt le
  | fuelA + 1, st, attempt, le => by
    unfold executeAgentLoop
    split
    · rcases hai : agentIter cfg beh name st attempt with st2 | ⟨st2, e⟩ | ⟨st2, e⟩
      · intro hsome
        simp at hsome
      · exact executeAgentLoop_raise_errors cfg beh name fuelA st2 (attempt + 1) (some e)
      · intro _
        exact agentRaise_errors name st2 attempt (some e)
    · intro _
      exact agentRaise_errors name st attempt le

/-- The tokens ghost log, newest first, is weakly descending: through time,
context.tokens_used never decreased. -/
def tokensLogSorted : List Int → Bool
  | [] => true
  | [_] => true
  | a :: b :: rest => decide (b ≤ a) && tokensLogSorted (b :: rest)

/-- Budget invariant of a run state: the newest log entry is the live
context.tokens_used, the log is weakly descending (monotone through time),
and every recorded value is at most cap. -/
def tokensInv (cap : Int) (st : RunState) : Prop :=
  st.tokensLog.head? = some st.ctx.tokens_used ∧
    tokensLogSorted st.tokensLog = true ∧
    st.tokensLog.all (fun n => decide (n ≤ cap)) = true

theorem agentIter_inv (cfg : OrchestratorConfig) (beh : WorkerBehavior) (name : String)
    (st : RunState) (attempt : Nat)
    (hbeh : ∀ i c r, beh name i c = Except.ok r →
      0 ≤ resultTokens r ∧ resultTokens r ≤ cfg.policy_manager.budget.max_tokens_per_agent)
    (hInv : tokensInv cfg.policy_manager.budget.max_tokens_per_issue st) :
    tokensInv cfg.policy_manager.budget.max_tokens_per_issue
      (agentIter cfg beh name st attempt).state := by
  unfold agentIter
  by_cases hbud : cfg.policy_manager.budget.check_token_budget st.ctx.tokens_used
      cfg.policy_manager.budget.max_tokens_per_agent = true
  · rw [if_pos hbud]
    dsimp only
    rcases hb : beh name st.calls st.ctx with e | r
    · dsimp only
      split
      · exact hInv
      · exact hInv
    · obtain ⟨hb0, hb1⟩ := hbeh st.calls st.ctx r hb
      obtain ⟨hhead, hsort, hall⟩ := hInv
      unfold BudgetPolicy.check_token_budget at hbud
      have hcheck := of_decide_eq_true hbud
      have htok := update_context_tokens name st.ctx r
      rcases hlog : st.tokensLog with _ | ⟨a, rest⟩
      · rw [hlog] at hhead
        exact absurd hhead (by simp)
      · rw [hlog] at hhead hsort hall
        have ha : a = st.ctx.tokens_used := by
          simpa using hhead
        refine ⟨rfl, ?_, ?_⟩
        · show tokensLogSorted ((update_context name st.ctx r).tokens_used :: a :: rest) = true
          unfold tokensLogSorted
          rw [Bool.and_eq_true]
          refine ⟨decide_eq_true ?_, hsort⟩
          rw [htok, ha]
          exact le_add_of_nonneg_right hb0
        · show ((update_context name st.ctx r).tokens_used :: a :: rest).all
            (fun n => decide (n ≤ cfg.policy_manager.budget.max_tokens_per_issue)) = true
          rw [List.all_cons, Bool.and_eq_true]
          refine ⟨decide_eq_true ?_, hall⟩
          rw [htok]
          calc st.ctx.tokens_used + resultTokens r
              ≤ st.ctx.tokens_used + cfg.policy_manager.budget.max_tokens_per_agent := by
                exact add_le_add_left hb1 _
            _ ≤ cfg.policy_manager.budget.max_tokens_per_issue := hcheck
  · rw [if_neg hbud]
    dsimp only
    split
    · exact hInv
    · exact hInv

theorem executeAgentLoop_inv (cfg : OrchestratorConfig) (beh : WorkerBehavior) (name : String)
    (hbeh : ∀ i c r, beh name i c = Except.ok r →
      0 ≤ resultTokens r ∧ resultTokens r ≤ cfg.policy_manager.budget.max_tokens_per_agent) :
    ∀ (fuelA : Nat) (st : RunState) (attempt : Nat) (le : Option PyErr),
      tokensInv cfg.policy_manager.budget.max_tokens_per_issue st →
      tokensInv cfg.policy_manager.budget.max_tokens_per_issue
        (executeAgentLoop cfg beh name fuelA st attempt le).1
  | 0, _st, _attempt, _le => fun hInv => hInv
  | fuelA + 1, st, attempt, le => fun hInv => by
    unfold executeAgentLoop
    split
    · rcases hai : agentIter cfg beh name st attempt with st2 | ⟨st2, e⟩ | ⟨st2, e⟩ <;>
        have hstep := agentIter_inv cfg beh name st attempt hbeh hInv <;>
        rw [hai] at hstep
      · exact hstep
      · exact executeAgentLoop_inv cfg beh name hbeh fuelA st2 (attempt + 1) (some e) hstep
      · exact hstep
    · exact hInv

theorem processLoop_inv (cfg : OrchestratorConfig) (beh : WorkerBehavior)
    (hbeh : ∀ name i c r, beh name i c = Except.ok r →
      0 ≤ resultTokens r ∧ resultTokens r ≤ cfg.policy_manager.budget.max_tokens_per_agent) :
    ∀ (fuel : Nat) (st : RunState),
      tokensInv cfg.policy_manager.budget.max_tokens_per_issue st →
      tokensInv cfg.policy_manager.budget.max_tokens_per_issue
        (processLoop cfg beh fuel st).state
  | 0, _st => fun hInv => hInv
  | fuel + 1, st => fun hInv => by
    unfold processLoop
    split
    · exact hInv
    · split
      · rename_i name hag
        split
        · rcases hea : executeAgentLoop cfg beh name
            (cfg.policy_manager.retry.max_retries + 1) st 0 none with ⟨st2, opt⟩
          have hInv2 : tokensInv cfg.policy_manager.budget.max_tokens_per_issue st2 := by
            have hx := executeAgentLoop_inv cfg beh name (hbeh name)
              (cfg.policy_manager.retry.max_retries + 1) st 0 none hInv
            rw [hea] at hx
            exact hx
          rcases opt with _ | e
          · dsimp only
            rcases hadv : advance_state st2.sm st2.ctx with msg | sm2
            · exact hInv2
            · exact processLoop_inv cfg beh hbeh fuel { st2 with sm := sm2 } hInv2
          · dsimp only
            exact hInv2
        · rcases htr : st.sm.transition_to .FAILED none with msg | sm2
          · exact hInv
          · exact processLoop_inv cfg beh hbeh fuel { st with sm := sm2 } hInv
      · rcases htr : st.sm.transition_to .FAILED none with msg | sm2
        · exact hInv
        · exact processLoop_inv cfg beh hbeh fuel { st with sm := sm2 } hInv

theorem working_of_nonterminal (s : ExecutionState) (h1 : s ≠ .PENDING)
    (h2 : (s == .COMPLETE || s == .FAILED) = false) : s ∈ workingStates := by
  cases s <;> simp_all [workingStates]

theorem working_edge_failed (s : ExecutionState) (h : s ∈ workingStates) :
    edgeExists s .FAILED = true := by
  simp only [workingStates, List.mem_cons, List.not_mem_nil, or_false] at h
  rcases h with h | h | h | h | h | h <;> subst h <;> decide

/-- Safety of a loop outcome: a normal exit is in a terminal state, and an
exception reaching the handler leaves the machine in a state with a FAILED
edge and an already-recorded error. -/
def loopSafe (o : LoopOutcome) : Prop :=
  (∀ st2, o = .exited st2 → st2.sm.is_terminal = true) ∧
    (∀ e st2, o = .excRaised e st2 →
      edgeExists st2.sm.current_state .FAILED = true ∧ st2.ctx.errors ≠ [])

theorem loopSafe_stillRunning (st : RunState) : loopSafe (.stillRunning st) := by
  refine ⟨?_, ?_⟩
  · intro st2 h
    exact absurd h (by simp)
  · intro e st2 h
    exact absurd h (by simp)

theorem loopSafe_exited (st : RunState) (h : st.sm.is_terminal = true) :
    loopSafe (.exited st) := by
  refine ⟨?_, ?_⟩
  · intro st2 h2
    injection h2 with h3
    rw [← h3]
    exact h
  · intro e st2 h2
    exact absurd h2 (by simp)

theorem loopSafe_excRaised (e : PyErr) (st : RunState)
    (h1 : edgeExists st.sm.current_state .FAILED = true) (h2 : st.ctx.errors ≠ []) :
    loopSafe (.excRaised e st) := by
  refine ⟨?_, ?_⟩
  · intro st2 hx
    exact absurd hx (by simp)
  · intro e2 st2 hx
    injection hx with ha hb
    rw [← hb]
    exact ⟨h1, h2⟩

theorem processLoop_safe (cfg : OrchestratorConfig) (beh : WorkerBehavior) :
    ∀ (fuel : Nat) (st : RunState), st.sm.current_state ≠ .PENDING →
      loopSafe (processLoop cfg beh fuel st)
  | 0, st => fun _ => loopSafe_stillRunning st
  | fuel + 1, st => fun hp => by
    unfold processLoop
    split
    · rename_i hterm
      exact loopSafe_exited st hterm
    · rename_i hterm
      have hterm2 : st.sm.is_terminal = false := by
        rwa [Bool.not_eq_true] at hterm
      have hwork : st.sm.current_state ∈ workingStates :=
        working_of_nonterminal _ hp hterm2
      split
      · rename_i name hag
        split
        · rcases hea : executeAgentLoop cfg beh name
            (cfg.policy_manager.retry.max_retries + 1) st 0 none with ⟨st2, opt⟩
          have hsm2 : st2.sm = st.sm := by
            have hx := executeAgentLoop_sm cfg beh name
              (cfg.policy_manager.retry.max_retries + 1) st 0 none
            rw [hea] at hx
            exact hx
          rcases opt with _ | e
          · dsimp only
            obtain ⟨smx, hok, hp2, hf2⟩ :=
              advance_state_ok st2.sm st2.ctx (by rw [hsm2]; exact hwork)
            rcases hadv : advance_state st2.sm st2.ctx with msg | sm2
            · rw [hok] at hadv
              exact absurd hadv (by simp)
            · have hsmx : smx = sm2 := by
                rw [hok] at hadv
                injection hadv
              subst hsmx
              exact processLoop_safe cfg beh fuel { st2 with sm := smx } hp2
          · dsimp only
            refine loopSafe_excRaised e st2 ?_ ?_
            · rw [hsm2]
              exact working_edge_failed _ hwork
            · have hx := executeAgentLoop_raise_errors cfg beh name
                (cfg.policy_manager.retry.max_retries + 1) st 0 none (by rw [hea]; rfl)
              rw [hea] at hx
              exact hx
        · have hedge : edgeExists st.sm.current_state .FAILED = true :=
            working_edge_failed _ hwork
          rw [transition_none_ok st.sm .FAILED hedge]
          exact processLoop_safe cfg beh fuel
            { st with
              sm := {
                current_state := .FAILED,
                state_history := st.sm.state_history ++ [.FAILED] } } (by simp)
      · have hedge : edgeExists st.sm.current_state .FAILED = true :=
          working_edge_failed _ hwork
        rw [transition_none_ok st.sm .FAILED hedge]
        exact processLoop_safe cfg beh fuel
          { st with
            sm := {
              current_state := .FAILED,
              state_history := st.sm.state_history ++ [.FAILED] } } (by simp)

theorem get_next_agent_mem (sm : StateMachine) (name : String)
    (h : sm.get_next_agent = some name) : name ∈ fullAgentRegistry := by
  unfold StateMachine.get_next_agent at h
  cases hx : sm.current_state <;> rw [hx] at h <;>
    first
      | (injection h with h2; rw [← h2]; decide)
      | (exact absurd h (by simp))

theorem get_next_agent_some (sm : StateMachine) (h : sm.current_state ∈ workingStates) :
    sm.get_next_agent.isSome = true := by
  simp only [workingStates, List.mem_cons, List.not_mem_nil, or_false] at h
  rcases h with h | h | h | h | h | h <;>
    unfold StateMachine.get_next_agent <;> rw [h] <;> rfl

theorem processLoop_full_registry (cfg : OrchestratorConfig) (beh : WorkerBehavior)
    (hreg : cfg.agents = fullAgentRegistry) :
    ∀ (fuel : Nat) (st : RunState), st.sm.current_state ≠ .PENDING →
      st.sm.current_state ≠ .FAILED →
      ∀ st2, processLoop cfg beh fuel st = .exited st2 →
        st2.sm.current_state = .COMPLETE
  | 0, st => fun _ _ st2 h => absurd h (by simp [processLoop])
  | fuel + 1, st => fun hp hf st2 h => by
    unfold processLoop at h
    split at h
    · rename_i hterm
      injection h with h2
      rw [← h2]
      cases hx : st.sm.current_state <;>
        rw [StateMachine.is_terminal, hx] at hterm <;> simp_all
    · rename_i hterm
      have hterm2 : st.sm.is_terminal = false := by
        rwa [Bool.not_eq_true] at hterm
      have hwork : st.sm.current_state ∈ workingStates :=
        working_of_nonterminal _ hp hterm2
      split at h
      · rename_i name hag
        split at h
        · rcases hea : executeAgentLoop cfg beh name
            (cfg.policy_manager.retry.max_retries + 1) st 0 none with ⟨st2x, opt⟩
          rw [hea] at h
          have hsm2 : st2x.sm = st.sm := by
            have hx := executeAgentLoop_sm cfg beh name
              (cfg.policy_manager.retry.max_retries + 1) st 0 none
            rw [hea] at hx
            exact hx
          rcases opt with _ | e
          · dsimp only at h
            obtain ⟨smx, hok, hp2, hf2⟩ :=
              advance_state_ok st2x.sm st2x.ctx (by rw [hsm2]; exact hwork)
            rw [hok] at h
            exact processLoop_full_registry cfg beh hreg fuel { st2x with sm := smx }
              hp2 hf2 st2 h
          · dsimp only at h
            exact absurd h (by simp)
        · rename_i hmem
          rw [hreg] at hmem
          exact absurd (get_next_agent_mem st.sm name hag) hmem
      · rename_i hag
        have := get_next_agent_some st.sm hwork
        rw [hag] at this
        exact absurd this (by simp)

/-- The run state right after the initial PENDING→ANALYZING transition (which
always succeeds on a fresh machine: the edge exists and no context is passed,
so the token guard is skipped). -/
def initialRunState (issue_url repository : String) : RunState := {
  sm := { current_state := .ANALYZING, state_history := [.PENDING, .ANALYZING] },
  ctx := { issue_id := lastUrlSegment issue_url, issue_url := issue_url,
           repository := repository },
  events := [TraceEvent.execution_started issue_url],
  calls := 0,
  tokensLog := [0] }

theorem process_issue_eq (cfg : OrchestratorConfig) (beh : WorkerBehavior)
    (issue_url repository : String) (fuel : Nat) :
    process_issue cfg beh issue_url repository fuel =
      (match processLoop cfg beh fuel (initialRunState issue_url repository) with
        | .exited st =>
          .finished { st with events := st.events ++
            [TraceEvent.trace_completed
              (if st.sm.current_state == .COMPLETE then "success" else "failed")] }
        | .excRaised e st => processHandler e st
        | .stillRunning st => .outOfFuel st) := rfl

/-- Claim C4 (amended): process_issue never raises to its caller and every
terminating call returns the context in a terminal state; with the full worker
registry, a run that ends in FAILED always carries at least one recorded entry
in context.errors. (The claim as stated fails on two points the counterexample
pins down: a missing stage worker ends in FAILED with errors empty, and a
permanently-reworking worker set keeps the loop from terminating at all.) -/
theorem process_issue_never_raises (cfg : OrchestratorConfig) (beh : WorkerBehavior)
    (issue_url repository : String) (fuel : Nat) :
    (process_issue cfg beh issue_url repository fuel).isRaised = false ∧
      (∀ st, process_issue cfg beh issue_url repository fuel = .finished st →
        st.sm.is_terminal = true) ∧
      (cfg.agents = fullAgentRegistry →
        ∀ st, process_issue cfg beh issue_url repository fuel = .finished st →
          st.sm.current_state = .FAILED → st.ctx.errors ≠ []) := by
  rw [process_issue_eq]
  have hsafe := processLoop_safe cfg beh fuel (initialRunState issue_url repository)
    (by simp [initialRunState])
  rcases hl : processLoop cfg beh fuel (initialRunState issue_url repository)
    with st | ⟨e, st⟩ | st
  · rw [hl] at hsafe
    have hterm := hsafe.1 st rfl
    refine ⟨rfl, ?_, ?_⟩
    · intro st' heq
      injection heq with h2
      rw [← h2]
      exact hterm
    · intro hreg st' heq hfail
      have hcomp := processLoop_full_registry cfg beh hreg fuel
        (initialRunState issue_url repository) (by simp [initialRunState])
        (by simp [initialRunState]) st hl
      injection heq with h2
      rw [← h2] at hfail
      rw [hcomp] at hfail
      exact absurd hfail (by simp)
  · rw [hl] at hsafe
    obtain ⟨hedge, herr⟩ := hsafe.2 e st rfl
    dsimp only
    unfold processHandler
    dsimp only
    rw [transition_none_ok _ .FAILED hedge]
    refine ⟨rfl, ?_, ?_⟩
    · intro st' heq
      injection heq with h2
      rw [← h2]
      rfl
    · intro _ st' heq _
      injection heq with h2
      rw [← h2]
      simp
  · exact ⟨rfl, fun st' heq => absurd heq (by simp),
      fun _ st' heq => absurd heq (by simp)⟩

theorem tokensInv_bound {cap : Int} {st : RunState} (h : tokensInv cap st) :
    st.ctx.tokens_used ≤ cap := by
  obtain ⟨hh, _, hall⟩ := h
  rcases hlog : st.tokensLog with _ | ⟨a, rest⟩
  · rw [hlog] at hh
    exact absurd hh (by simp)
  · rw [hlog] at hh hall
    have ha : a = st.ctx.tokens_used := by simpa using hh
    rw [List.all_cons, Bool.and_eq_true] at hall
    have hb := of_decide_eq_true hall.1
    rwa [ha] at hb

theorem processHandler_inv {cap : Int} (e : PyErr) (st : RunState)
    (h : tokensInv cap st) : tokensInv cap (processHandler e st).endState := by
  unfold processHandler
  dsimp only
  rcases htr : st.sm.transition_to .FAILED none with msg | sm2
  · exact h
  · exact h

/-- Claim C2 (amended): provided every worker report lies between 0 and the
per-stage allotment max_tokens_per_agent, and the per-task cap is
non-negative, context.tokens_used is non-decreasing through the whole run
(the ghost log is weakly descending newest-first) and never exceeds
max_tokens_per_issue; in particular the final value is at most the cap. -/
theorem tokens_monotone_and_capped (cfg : OrchestratorConfig) (beh : WorkerBehavior)
    (issue_url repository : String) (fuel : Nat)
    (hcap : 0 ≤ cfg.policy_manager.budget.max_tokens_per_issue)
    (hbeh : ∀ name i c r, beh name i c = Except.ok r →
      0 ≤ resultTokens r ∧ resultTokens r ≤ cfg.policy_manager.budget.max_tokens_per_agent) :
    tokensInv cfg.policy_manager.budget.max_tokens_per_issue
      (process_issue cfg beh issue_url repository fuel).endState ∧
      (process_issue cfg beh issue_url repository fuel).endState.ctx.tokens_used ≤
        cfg.policy_manager.budget.max_tokens_per_issue := by
  have hInit : tokensInv cfg.policy_manager.budget.max_tokens_per_issue
      (initialRunState issue_url repository) := by
    refine ⟨rfl, rfl, ?_⟩
    simp only [initialRunState, List.all_cons, List.all_nil, Bool.and_true,
      decide_eq_true_eq]
    exact hcap
  have hfin := processLoop_inv cfg beh hbeh fuel (initialRunState issue_url repository) hInit
  rw [process_issue_eq]
  rcases hl : processLoop cfg beh fuel (initialRunState issue_url repository)
    with st | ⟨e, st⟩ | st <;> rw [hl] at hfin
  · exact ⟨hfin, tokensInv_bound hfin⟩
  · have hh := processHandler_inv e st hfin
    exact ⟨hh, tokensInv_bound hh⟩
  · exact ⟨hfin, tokensInv_bound hfin⟩

/-- Claim C2 witness: the amended bound applied to a concrete full run. -/
theorem tokens_monotone_and_capped_witness :
    tokensInv defaultConfig.policy_manager.budget.max_tokens_per_issue
      (process_issue defaultConfig behHappy "u/1" "o/r" 30).endState ∧
      (process_issue defaultConfig behHappy "u/1" "o/r" 30).endState.ctx.tokens_used ≤
        defaultConfig.policy_manager.budget.max_tokens_per_issue :=
  tokens_monotone_and_capped defaultConfig behHappy "u/1" "o/r" 30 (by decide)
    (by
      intro name i c r h
      unfold behHappy at h
      split_ifs at h <;> injection h with h2 <;> rw [← h2] <;> decide)

/-- Every report of the behAnalyzeHuge worker set is non-negative, so this
behaviour satisfies the hypothesis of claim C2 as stated. -/
theorem behAnalyzeHuge_reports_nonneg :
    ∀ name i c r, behAnalyzeHuge name i c = Except.ok r → 0 ≤ resultTokens r := by
  intro name i c r h
  unfold behAnalyzeHuge at h
  split_ifs at h <;> injection h with h2 <;> rw [← h2] <;> decide

/-- Claim C2 (counterexample): all reports of the behAnalyzeHuge worker set
are non-negative (behAnalyzeHuge_reports_nonneg), yet after the run
context.tokens_used stands at 150000, above the default per-task cap of
100000: the engine checks the budget only before a stage (against the
per-stage allotment) and adds the reported usage unchecked afterwards. -/
theorem tokens_exceed_cap_counterexample :
    defaultConfig.policy_manager.budget.max_tokens_per_issue = 100000 ∧
      (process_issue defaultConfig behAnalyzeHuge "u/1" "o/r" 30).endState.ctx.tokens_used =
        150000 ∧
      ¬((process_issue defaultConfig behAnalyzeHuge "u/1" "o/r" 30).endState.ctx.tokens_used ≤
        defaultConfig.policy_manager.budget.max_tokens_per_issue) := by
  refine ⟨rfl, rfl, ?_⟩
  decide

/-- Claim C4 (counterexample): with the validator worker missing from the
registry, the run terminates in FAILED — a fatal condition — yet
context.errors is empty: the missing-agent path only logs and never appends
to the context's error list. -/
theorem missing_agent_error_unrecorded :
    (process_issue registryNoValidator behHappy "u/1" "o/r" 30).isFinished = true ∧
      (process_issue registryNoValidator behHappy "u/1" "o/r" 30).endState.sm.current_state =
        .FAILED ∧
      (process_issue registryNoValidator behHappy "u/1" "o/r" 30).endState.ctx.errors = [] :=
  ⟨rfl, rfl, rfl⟩

/-- Claim C4 witness: the amended theorem applied to a concrete run whose
impact_assessment stage exhausts the token budget. -/
theorem process_issue_never_raises_witness :
    (process_issue defaultConfig behAnalyzeHuge "u/1" "o/r" 30).isRaised = false ∧
      (process_issue defaultConfig behAnalyzeHuge "u/1" "o/r" 30).endState.ctx.errors ≠ [] := by
  have h := process_issue_never_raises defaultConfig behAnalyzeHuge "u/1" "o/r" 30
  exact ⟨h.1, h.2.2 rfl _ rfl rfl⟩

/-- Claim C1: evaluating the engine at the failing inputs. First run: the
pr_reviewer raises retryable errors three times (driving retry_count to 3,
the rework budget) and then flags requires_changes; the engine still takes
the Review→Generate rework edge — _advance_state passes no context, so the
retry guard is never evaluated — and the run ends COMPLETE with
retry_count = 3, never visiting FAILED. Second run: the validator reports
tests_passed false forever; with rework never incrementing retry_count, the
Generate state is re-entered 10 times within 30 loop iterations (well past
MAX_REWORK + 1 = 4) with retry_count still 0, and the run is still going. -/
theorem rework_guard_dead :
    ((process_issue defaultConfig behReworkAfterRetries "u/1" "o/r" 30).isFinished = true ∧
      (process_issue defaultConfig behReworkAfterRetries "u/1" "o/r" 30).endState.ctx.retry_count
        = 3 ∧
      (process_issue defaultConfig behReworkAfterRetries "u/1" "o/r" 30).endState.sm.state_history
        = [.PENDING, .ANALYZING, .ASSESSING, .PLANNING, .GENERATING, .REVIEWING, .GENERATING,
            .REVIEWING, .VALIDATING, .COMPLETE]) ∧
    ((process_issue defaultConfig behEndlessRework "u/1" "o/r" 30).isOutOfFuel = true ∧
      ((process_issue defaultConfig behEndlessRework "u/1" "o/r" 30).endState.sm.state_history.count
        ExecutionState.GENERATING) = 10 ∧
      (process_issue defaultConfig behEndlessRework "u/1" "o/r" 30).endState.ctx.retry_count = 0 ∧
      ExecutionState.FAILED ∉
        (process_issue defaultConfig behEndlessRework "u/1" "o/r" 30).endState.sm.state_history) := by
  refine ⟨⟨rfl, rfl, rfl⟩, rfl, rfl, rfl, ?_⟩
  decide

/-- Predicate: is this trace event an agent_started event? -/
def isAgentStarted : TraceEvent → Bool
  | .agent_started _ _ => true
  | _ => false

/-- A context whose cumulative tokens are far above every cap and whose slots
are all empty (so every forward guard would deny if it were consulted). -/
def overBudgetCtx : ExecutionContext :=
  { issue_id := "1", issue_url := "u/1", repository := "o/r", tokens_used := 150000 }

/-- Claim C3: evaluating the engine at the failing input. With the per-task
cap set to 1000, the run fails before the Analyze worker ever starts: the
pre-stage check inside _execute_agent compares tokens_used plus the 25000
per-stage allotment against the cap and raises BudgetExceededError, so the
trace has no agent_started event at all (in particular none for Assess), the
machine walks PENDING→ANALYZING→FAILED, and the recorded errors name the
budget. Separately, _advance_state passes no context to transition_to, so the
engine advances ANALYZING→ASSESSING even from a context on which the guard,
when asked directly, denies. -/
theorem token_budget_guard_not_consulted :
    ((process_issue smallBudgetConfig behAnalyzeBig "u/1" "o/r" 30).isFinished = true ∧
      (process_issue smallBudgetConfig behAnalyzeBig "u/1" "o/r" 30).endState.sm.state_history
        = [.PENDING, .ANALYZING, .FAILED] ∧
      (process_issue smallBudgetConfig behAnalyzeBig "u/1" "o/r" 30).endState.ctx.errors
        = ["issue_intelligence: Token budget exceeded",
            "Agent issue_intelligence failed after 0 attempts: Token budget exceeded"] ∧
      ((process_issue smallBudgetConfig behAnalyzeBig "u/1" "o/r" 30).endState.events.filter
        isAgentStarted) = []) ∧
    (advance_state { current_state := .ANALYZING, state_history := [.PENDING, .ANALYZING] }
        overBudgetCtx
      = .ok { current_state := .ASSESSING,
              state_history := [.PENDING, .ANALYZING, .ASSESSING] } ∧
      StateMachine.can_transition_to
        { current_state := .ANALYZING, state_history := [.PENDING, .ANALYZING] }
        .ASSESSING (some overBudgetCtx) = false) :=
  ⟨⟨rfl, rfl, rfl, rfl⟩, rfl, rfl⟩

/-- A minimal context with every slot empty. -/
def baseCtx : ExecutionContext := { issue_id := "1", issue_url := "u", repository := "r" }

/-- Claim C9: the Validating→Complete guard is an identity test against the
literal False — it passes exactly when the validation slot holds a
tests_passed value that is not the boolean False, so the int 0, None and a
non-empty string all count as passed — while a missing key falls back to the
literal False, counts as failed, and makes _advance_state select the
Generate rework target. -/
theorem validation_literal_false_semantics :
    (∀ context : ExecutionContext,
      validation_passed context = true ↔
        ∃ v, context.validation_result.lookup "tests_passed" = some v ∧ v ≠ .pybool false) ∧
    (∀ (sm : StateMachine) (ctx : ExecutionContext), sm.current_state = .VALIDATING →
      ctx.validation_result.lookup "tests_passed" = none →
      advance_state sm ctx = sm.transition_to .GENERATING none) ∧
    validation_passed { baseCtx with validation_result := [("tests_passed", .pyint 0)] } = true ∧
    validation_passed { baseCtx with validation_result := [("tests_passed", .pynone)] } = true ∧
    validation_passed { baseCtx with validation_result := [("tests_passed", .pystr "no")] }
      = true ∧
    validation_passed baseCtx = false := by
  refine ⟨?_, ?_, rfl, rfl, rfl, rfl⟩
  · intro context
    unfold validation_passed pyGet
    rcases hl : context.validation_result.lookup "tests_passed" with _ | v
    · simp [isLiteralFalse]
    · rcases v with _ | b | n | s
      · simp [isLiteralFalse]
      · rcases b with _ | _ <;> simp [isLiteralFalse]
      · simp [isLiteralFalse]
      · simp [isLiteralFalse]
  · intro sm ctx hcur hl
    unfold advance_state
    rw [hcur]
    rw [if_neg (by simp)]
    rw [if_pos (by simp [pyGet, hl, isLiteralFalse])]

/-- Claim C9 witness: the rework-selection clause applied at a concrete
machine and context with no tests_passed key. -/
theorem validation_literal_false_semantics_witness :
    advance_state { current_state := .VALIDATING, state_history := [.PENDING] } baseCtx =
      StateMachine.transition_to
        { current_state := .VALIDATING, state_history := [.PENDING] } .GENERATING none :=
  validation_literal_false_semantics.2.1
    { current_state := .VALIDATING, state_history := [.PENDING] } baseCtx rfl rfl

/-- A quota view as RateLimiter.check_rate_limit returns it. -/
structure RateLimits where
  remaining : Int
  limit : Int
  reset_at : ℚ
  reset_in : ℚ
deriving DecidableEq, Repr

/-- The RateLimiter's mutable state from integrations/github_client.py. -/
structure RateLimiterState where
  safety_margin : Int := 100
  last_check : ℚ := 0
  cached_limits : Option RateLimits := none
  check_interval : ℚ := 60
deriving DecidableEq, Repr

/-- Outcome of the remote quota query github_client.get_rate_limit plus the
attribute-probing that follows it: ok (some (remaining, limit, reset_ts))
when a core/rate object with a remaining attribute was found, ok none when
the probing fell through to the getattr defaults, and error when the query
raised. -/
abbrev RateLimitQuery := Except Unit (Option (Int × Int × ℚ))

/-- RateLimiter.check_rate_limit: serve from the cache when it is present and
younger than check_interval; otherwise refresh from the query, caching the
result — except that a raising query yields the conservative defaults
(1000 remaining of 5000, reset one hour out) and leaves the cache alone. -/
def check_rate_limit (st : RateLimiterState) (now : ℚ) (query : RateLimitQuery) :
    RateLimits × RateLimiterState :=
  if st.cached_limits.isSome ∧ now - st.last_check < st.check_interval then
    (st.cached_limits.getD ⟨0, 0, 0, 0⟩, st)
  else
    match query with
    | .ok (some (remaining, limit, reset_ts)) =>
      let limits : RateLimits := ⟨remaining, limit, reset_ts, max 0 (reset_ts - now)⟩
      (limits, { st with cached_limits := some limits, last_check := now })
    | .ok none =>
      let limits : RateLimits := ⟨1000, 5000, now + 3600, 3600⟩
      (limits, { st with cached_limits := some limits, last_check := now })
    | .error _ =>
      (⟨1000, 5000, now + 3600, 3600⟩, st)

/-- Claim C8: when the cache cannot serve (absent or stale) and the remote
quota query raises, check_rate_limit returns the conservative defaults —
1000 remaining of a 5000 limit, reset one hour from now — with the limiter
state unchanged, instead of propagating the failure. -/
theorem check_rate_limit_conservative (st : RateLimiterState) (now : ℚ)
    (hstale : st.cached_limits = none ∨ ¬(now - st.last_check < st.check_interval)) :
    check_rate_limit st now (.error ()) = (⟨1000, 5000, now + 3600, 3600⟩, st) := by
  have hc : ¬(st.cached_limits.isSome = true ∧ now - st.last_check < st.check_interval) := by
    rcases hstale with h | h
    · intro hx
      rw [h] at hx
      exact absurd hx.1 (by simp)
    · intro hx
      exact h hx.2
  unfold check_rate_limit
  rw [if_neg hc]

/-- Claim C8 witness: the fallback on a fresh limiter whose first query
raises. -/
theorem check_rate_limit_conservative_witness :
    check_rate_limit {} 0 (.error ()) = (⟨1000, 5000, 0 + 3600, 3600⟩, {}) :=
  check_rate_limit_conservative {} 0 (Or.inl rfl)

/-- IssueResult from benchmarking/swe_bench_runner.py (floats as exact
rationals; JSON round-trips every leaf value of this record). -/
structure IssueResult where
  issue_id : String
  issue_url : String
  status : String
  execution_time_seconds : ℚ
  tokens_used : Int
  cost_usd : ℚ
  tests_passed : Bool
  regressions : Int
  patch_generated : Bool
  patch_files : List String := []
  errors : List String := []
  metrics : PyDict := []
deriving DecidableEq, Repr

/-- BenchmarkRun from benchmarking/swe_bench_runner.py. -/
structure BenchmarkRun where
  run_id : String
  started_at : String
  completed_at : Option String := none
  repository : String := ""
  total_issues : Int := 0
  results : List IssueResult := []
deriving DecidableEq, Repr

/-- BenchmarkRun.add_result: append and refresh total_issues. -/
def BenchmarkRun.add_result (run : BenchmarkRun) (result : IssueResult) : BenchmarkRun :=
  let results2 := run.results ++ [result]
  { run with results := results2, total_issues := (results2.length : Int) }

/-- BenchmarkRun.get_summary. Python's float divisions are modelled as exact
rational division — a representation-level difference only, and load_run
never reads the summary back. -/
inductive SummaryDict where
  | noResults
  | stats (run_id : String) (repository : String) (total_issues : Int)
      (successful : Int) (failed : Int) (success_rate : ℚ)
      (tests_passed : Int) (test_pass_rate : ℚ) (patches_generated : Int)
      (total_regressions : Int) (total_tokens : Int) (total_cost_usd : ℚ)
      (total_time_seconds : ℚ) (avg_time_per_issue : ℚ)
deriving DecidableEq, Repr

/-- BenchmarkRun.get_summary, field for field. -/
def BenchmarkRun.get_summary (run : BenchmarkRun) : SummaryDict :=
  if run.results.isEmpty then .noResults
  else
    let successful := ((run.results.filter (fun r => r.status == "success")).length : Int)
    let failed := ((run.results.filter (fun r => r.status == "failed")).length : Int)
    let total_tokens := (run.results.map (fun r => r.tokens_used)).sum
    let total_cost := (run.results.map (fun r => r.cost_usd)).sum
    let total_time := (run.results.map (fun r => r.execution_time_seconds)).sum
    let tests_passed := ((run.results.filter (fun r => r.tests_passed)).length : Int)
    let patches_generated := ((run.results.filter (fun r => r.patch_generated)).length : Int)
    let total_regressions := (run.results.map (fun r => r.regressions)).sum
    .stats run.run_id run.repository run.total_issues successful failed
      (if run.total_issues > 0 then (successful : ℚ) / (run.total_issues : ℚ) else 0)
      tests_passed
      (if run.total_issues > 0 then (tests_passed : ℚ) / (run.total_issues : ℚ) else 0)
      patches_generated total_regressions total_tokens total_cost total_time
      (if run.total_issues > 0 then total_time / (run.total_issues : ℚ) else 0)

/-- The JSON object that complete_run writes (BenchmarkRun.to_dict), field for
field: json.dump followed by json.load round-trips every leaf value, and
asdict of each IssueResult followed by IssueResult(**data) reconstructs an
equal record, so the file content is modelled as this record. -/
structure RunFileDict where
  run_id : String
  started_at : String
  completed_at : Option String
  repository : String
  total_issues : Int
  summary : SummaryDict
  results : List IssueResult
deriving DecidableEq, Repr

/-- BenchmarkRun.to_dict. -/
def BenchmarkRun.to_dict (run : BenchmarkRun) : RunFileDict :=
  { run_id := run.run_id, started_at := run.started_at, completed_at := run.completed_at,
    repository := run.repository, total_issues := run.total_issues,
    summary := run.get_summary, results := run.results }

/-- The SWEBenchRunner, with its output directory modelled as the mapping from
run id to the file object written under that name (newest write first). -/
structure SWEBenchRunner where
  files : List (String × RunFileDict) := []
  current_run : Option BenchmarkRun := none
deriving DecidableEq, Repr

/-- SWEBenchRunner.start_run; uuid_hex12 stands for uuid4().hex[:12] and
now_iso for datetime.utcnow().isoformat(). -/
def SWEBenchRunner.start_run (runner : SWEBenchRunner) (repository : String)
    (uuid_hex12 : String) (now_iso : String) : BenchmarkRun × SWEBenchRunner :=
  let run : BenchmarkRun :=
    { run_id := "run_" ++ uuid_hex12, started_at := now_iso, repository := repository }
  (run, { runner with current_run := some run })

/-- SWEBenchRunner.record_result: a no-op without an active run. -/
def SWEBenchRunner.record_result (runner : SWEBenchRunner) (result : IssueResult) :
    SWEBenchRunner :=
  match runner.current_run with
  | some run => { runner with current_run := some (run.add_result result) }
  | none => runner

/-- SWEBenchRunner.complete_run: stamp completed_at, write the to_dict object
under the run id, return the path (modelled by the run id); raises ValueError
without an active run. -/
def SWEBenchRunner.complete_run (runner : SWEBenchRunner) (now_iso : String) :
    Except String (String × SWEBenchRunner) :=
  match runner.current_run with
  | none => .error "No active benchmark run"
  | some run =>
    let run2 := { run with completed_at := some now_iso }
    .ok (run2.run_id, { runner with
      current_run := some run2,
      files := (run2.run_id, run2.to_dict) :: runner.files })

/-- SWEBenchRunner.load_run: read the file back into a BenchmarkRun; the
results list is rebuilt element by element in order. -/
def SWEBenchRunner.load_run (runner : SWEBenchRunner) (run_id : String) :
    Except String BenchmarkRun :=
  match runner.files.lookup run_id with
  | none => .error "file not found"
  | some data =>
    .ok { run_id := data.run_id, started_at := data.started_at,
          completed_at := data.completed_at, repository := data.repository,
          total_issues := data.total_issues, results := data.results }

theorem record_fold : ∀ (rs : List IssueResult) (runner : SWEBenchRunner) (run : BenchmarkRun),
    runner.current_run = some run → run.total_issues = (run.results.length : Int) →
    ∃ run2, (rs.foldl SWEBenchRunner.record_result runner).current_run = some run2 ∧
      (rs.foldl SWEBenchRunner.record_result runner).files = runner.files ∧
      run2.run_id = run.run_id ∧ run2.started_at = run.started_at ∧
      run2.completed_at = run.completed_at ∧ run2.repository = run.repository ∧
      run2.results = run.results ++ rs ∧ run2.total_issues = (run2.results.length : Int)
  | [], runner, run, h, hP => ⟨run, h, rfl, rfl, rfl, rfl, rfl, by simp, hP⟩
  | r :: rs, runner, run, h, hP => by
    have hstep : (runner.record_result r).current_run = some (run.add_result r) := by
      unfold SWEBenchRunner.record_result
      rw [h]
    have hfiles : (runner.record_result r).files = runner.files := by
      unfold SWEBenchRunner.record_result
      rw [h]
    have hP2 : (run.add_result r).total_issues = ((run.add_result r).results.length : Int) := by
      unfold BenchmarkRun.add_result
      simp
    obtain ⟨run2, hc, hf, h1, h2, h3, h4, h5, hP3⟩ :=
      record_fold rs (runner.record_result r) (run.add_result r) hstep hP2
    refine ⟨run2, hc, ?_, h1, h2, h3, h4, ?_, hP3⟩
    · rw [List.foldl_cons, hf, hfiles]
    · rw [h5]
      unfold BenchmarkRun.add_result
      simp

/-- Claim C7: start_run, a sequence of record_result calls, complete_run and
load_run of the same run id reconstruct a BenchmarkRun whose run_id,
started_at, completed_at, repository, total_issues and ordered result list
all equal those of the recorded run. -/
theorem benchmark_round_trip (repository uuid_hex12 t0 t1 : String)
    (results : List IssueResult) :
    ∃ runner3,
      (results.foldl SWEBenchRunner.record_result
          (SWEBenchRunner.start_run {} repository uuid_hex12 t0).2).complete_run t1 =
        .ok ("run_" ++ uuid_hex12, runner3) ∧
      runner3.load_run ("run_" ++ uuid_hex12) =
        .ok { run_id := "run_" ++ uuid_hex12, started_at := t0, completed_at := some t1,
              repository := repository, total_issues := (results.length : Int),
              results := results } := by
  obtain ⟨run2, hc, hf, h1, h2, h3, h4, h5, hP⟩ :=
    record_fold results (SWEBenchRunner.start_run {} repository uuid_hex12 t0).2
      { run_id := "run_" ++ uuid_hex12, started_at := t0, repository := repository }
      rfl rfl
  have h1x : run2.run_id = "run_" ++ uuid_hex12 := h1
  have h2x : run2.started_at = t0 := h2
  have h4x : run2.repository = repository := h4
  have h5x : run2.results = results := by simpa using h5
  have hPx : run2.total_issues = (results.length : Int) := by rw [hP, h5x]
  refine ⟨{
      files := [("run_" ++ uuid_hex12,
        BenchmarkRun.to_dict { run2 with completed_at := some t1 })],
      current_run := some { run2 with completed_at := some t1 } }, ?_, ?_⟩
  · unfold SWEBenchRunner.complete_run
    rw [hc]
    dsimp only
    rw [hf, h1x]
    rfl
  · unfold SWEBenchRunner.load_run
    have hkey : (List.lookup ("run_" ++ uuid_hex12)
        [("run_" ++ uuid_hex12, BenchmarkRun.to_dict { run2 with completed_at := some t1 })]) =
        some (BenchmarkRun.to_dict { run2 with completed_at := some t1 }) := by
      simp [List.lookup]
    rw [hkey]
    unfold BenchmarkRun.to_dict
    dsimp only
    rw [h1x, h2x, h4x, h5x, hPx]
